import Mathlib

/-!
Verification of the download pipeline of `discord-downloader-go`
(`downloads.go`), via a shallow embedding in Lean 4.

The embedding follows the Go source: `downloadStatus` (an ordered integer
enumeration), the bounded-retry controller `startDownload`, the
extension/domain allow/deny filters, the path-collision suffix probing,
the near-duplicate image filter, the write-then-record tail, the
link-activity-log gate, the random reaction-emoji selection loop, and the
resolver dispatch `getDownloadLinks`.

Effectful operations (HTTP, filesystem existence, random sampling, the
record sink) are modelled by explicit parameters: an existence predicate
`String → Bool` for the filesystem, `Option String` for a Go `error`
value, and a stream `Nat → Nat` for successive random draws.
-/

set_option autoImplicit false

/-- The `downloadStatus` enumeration of `downloads.go` lines 35-60.
Constructors are listed in the source's `iota` order. -/
inductive downloadStatus where
  | downloadSuccess
  | downloadIgnored
  | downloadSkipped
  | downloadSkippedDuplicate
  | downloadSkippedUnpermittedDomain
  | downloadSkippedUnpermittedType
  | downloadSkippedUnpermittedExtension
  | downloadSkippedDetectedDuplicate
  | downloadFailed
  | downloadFailed404
  | downloadFailedInvalidSource
  | downloadFailedInvalidPath
  | downloadFailedCreatingFolder
  | downloadFailedRequesting
  | downloadFailedDownloadingResponse
  | downloadFailedReadResponse
  | downloadFailedCreatingSubfolder
  | downloadFailedWritingFile
  | downloadFailedWritingDatabase
deriving DecidableEq, Fintype, Repr

open downloadStatus

/-- The integer value Go's `iota` assigns to each `downloadStatus`
constant (`downloads.go` lines 37-60); Go code compares these integers
directly (`<`, `>`, `>=`, `==`). -/
def statusRank : downloadStatus → Nat
  | downloadSuccess => 0
  | downloadIgnored => 1
  | downloadSkipped => 2
  | downloadSkippedDuplicate => 3
  | downloadSkippedUnpermittedDomain => 4
  | downloadSkippedUnpermittedType => 5
  | downloadSkippedUnpermittedExtension => 6
  | downloadSkippedDetectedDuplicate => 7
  | downloadFailed => 8
  | downloadFailed404 => 9
  | downloadFailedInvalidSource => 10
  | downloadFailedInvalidPath => 11
  | downloadFailedCreatingFolder => 12
  | downloadFailedRequesting => 13
  | downloadFailedDownloadingResponse => 14
  | downloadFailedReadResponse => 15
  | downloadFailedCreatingSubfolder => 16
  | downloadFailedWritingFile => 17
  | downloadFailedWritingDatabase => 18

/-- `downloadStatusStruct` (`downloads.go` lines 62-65); the Go `error`
field is modelled by `Option String` (`none` = `nil`). -/
structure downloadStatusStruct where
  Status : downloadStatus
  Error : Option String
deriving DecidableEq, Repr

/-- `mDownloadStatus` (`downloads.go` lines 67-78): the Go variadic error
argument (zero or one values) is modelled by an `Option`. -/
def mDownloadStatus (status : downloadStatus) (e : Option String) : downloadStatusStruct :=
  { Status := status, Error := e }

/-- The skip variants named by the spec:
Duplicate, UnpermittedDomain, UnpermittedType, UnpermittedExtension,
DetectedNearDuplicate. -/
def skippedVariant : downloadStatus → Bool
  | downloadSkippedDuplicate => true
  | downloadSkippedUnpermittedDomain => true
  | downloadSkippedUnpermittedType => true
  | downloadSkippedUnpermittedExtension => true
  | downloadSkippedDetectedDuplicate => true
  | _ => false

/-- The failure variants named by the spec: Generic, NotFound,
InvalidSource, InvalidPath, CreateFolder, Request, TransferResponse,
ReadResponse, CreateSubfolder, WriteFile, WriteRecord. -/
def failedVariant : downloadStatus → Bool
  | downloadFailed => true
  | downloadFailed404 => true
  | downloadFailedInvalidSource => true
  | downloadFailedInvalidPath => true
  | downloadFailedCreatingFolder => true
  | downloadFailedRequesting => true
  | downloadFailedDownloadingResponse => true
  | downloadFailedReadResponse => true
  | downloadFailedCreatingSubfolder => true
  | downloadFailedWritingFile => true
  | downloadFailedWritingDatabase => true
  | _ => false

/-- The retry-loop stop condition of `downloads.go` line 428:
`status.Status < downloadFailed || status.Status == downloadFailed404`. -/
def retryStop (s : downloadStatus) : Bool :=
  decide (statusRank s < statusRank downloadFailed) || decide (s = downloadFailed404)

/-- The retry loop body of `startDownload` (`downloads.go` lines 426-433),
instrumented with the number of `tryDownload` calls performed.  `exec j`
is the result of the `j`-th `tryDownload` invocation; `status` is the
value of the Go `status` variable entering the loop; the `Nat` argument
after the colon is the number of remaining iterations
(`config.DownloadRetryMax - i`).  The `time.Sleep` between attempts has
no modelled effect. -/
def retryLoop (exec : Nat → downloadStatusStruct) (status : downloadStatusStruct) (i : Nat) :
    Nat → downloadStatusStruct × Nat
  | 0 => (status, 0)
  | n + 1 =>
    let s := exec i
    if retryStop s.Status then (s, 1)
    else
      let r := retryLoop exec s (i + 1) n
      (r.1, r.2 + 1)

/-- The retry controller `startDownload` (`downloads.go` lines 422-433),
restricted to its loop: the `status` variable is initialised to
`mDownloadStatus(downloadFailed)` and the loop runs while
`i < config.DownloadRetryMax` (a Go `int`, modelled as `Int`; a
non-positive bound runs zero iterations).  Returns the final status
together with the number of `tryDownload` calls made. -/
def startDownload (exec : Nat → downloadStatusStruct) (downloadRetryMax : Int) :
    downloadStatusStruct × Nat :=
  retryLoop exec (mDownloadStatus downloadFailed none) 0 downloadRetryMax.toNat

theorem retryLoop_calls_le (exec : Nat → downloadStatusStruct) :
    ∀ (n : Nat) (status : downloadStatusStruct) (i : Nat),
      (retryLoop exec status i n).2 ≤ n := by
  intro n
  induction n with
  | zero => intro status i; simp [retryLoop]
  | succ n ih =>
    intro status i
    simp only [retryLoop]
    by_cases h : retryStop (exec i).Status
    · simp [h]
    · simp only [h, if_false]
      exact Nat.succ_le_succ (ih _ _)

theorem retryLoop_stops_at_first (exec : Nat → downloadStatusStruct) :
    ∀ (n k i : Nat) (status : downloadStatusStruct),
      (∀ j, j < k → retryStop (exec (i + j)).Status = false) →
      retryStop (exec (i + k)).Status = true →
      k < n →
      retryLoop exec status i n = (exec (i + k), k + 1) := by
  intro n
  induction n with
  | zero => intro k i status _ _ hk; exact absurd hk (Nat.not_lt_zero k)
  | succ n ih =>
    intro k i status hbefore hstop hk
    match k with
    | 0 =>
      simp only [Nat.add_zero] at hstop
      simp [retryLoop, hstop]
    | k + 1 =>
      have h0 : retryStop (exec i).Status = false := by
        have := hbefore 0 (Nat.succ_pos k)
        simpa using this
      simp only [retryLoop, h0, Bool.false_eq_true, if_false]
      have hrec : retryLoop exec (exec i) (i + 1) n = (exec (i + 1 + k), k + 1) := by
        apply ih
        · intro j hj
          have := hbefore (j + 1) (Nat.succ_lt_succ hj)
          have harith : i + (j + 1) = i + 1 + j := by omega
          rwa [harith] at this
        · have harith : i + (k + 1) = i + 1 + k := by omega
          rwa [harith] at hstop
        · exact Nat.lt_of_succ_lt_succ hk
      rw [hrec]
      have harith : i + 1 + k = i + (k + 1) := by omega
      rw [harith]

/-- C1: The DownloadStatus severity ordering is total and stable
(`Success < Ignored < Skipped* < Failed*`, as integer ranks with no two
variants sharing a rank), and the retry controller's continue/stop
decision (`downloads.go` line 428) is determined by this ordering alone:
stop exactly when the rank is below `Failed`'s rank or equals
`Failed_NotFound`'s rank. -/
theorem downloadStatus_ordering_retry_contract :
    statusRank downloadSuccess < statusRank downloadIgnored
    ∧ (∀ s : downloadStatus, skippedVariant s = true →
        statusRank downloadIgnored < statusRank s)
    ∧ (∀ s f : downloadStatus, skippedVariant s = true → failedVariant f = true →
        statusRank s < statusRank f)
    ∧ (∀ a b : downloadStatus, statusRank a = statusRank b → a = b)
    ∧ (∀ s : downloadStatus,
        retryStop s = (decide (statusRank s < statusRank downloadFailed)
          || decide (statusRank s = statusRank downloadFailed404))) := by
  refine ⟨by decide, by decide, by decide, by decide, by decide⟩

/-- Witness for C1 at concrete variants. -/
theorem downloadStatus_ordering_retry_contract_witness :
    statusRank downloadIgnored < statusRank downloadSkippedDuplicate
    ∧ statusRank downloadSkippedDetectedDuplicate < statusRank downloadFailed404 := by
  exact ⟨downloadStatus_ordering_retry_contract.2.1 downloadSkippedDuplicate (by decide),
    downloadStatus_ordering_retry_contract.2.2.1 downloadSkippedDetectedDuplicate
      downloadFailed404 (by decide) (by decide)⟩

/-- C2: the retry controller calls `tryDownload` at most
`config.DownloadRetryMax` times; it stops immediately after the first
invocation whose status satisfies the stop condition (`< Failed` or
`= Failed_NotFound`), returning that invocation's result; and a
`tryDownload` that reports `Failed_NotFound` is invoked exactly once. -/
theorem startDownload_retry_behavior (exec : Nat → downloadStatusStruct)
    (downloadRetryMax : Int) (k : Nat) :
    (startDownload exec downloadRetryMax).2 ≤ downloadRetryMax.toNat
    ∧ ((∀ j, j < k → retryStop (exec j).Status = false) →
        retryStop (exec k).Status = true →
        k < downloadRetryMax.toNat →
        startDownload exec downloadRetryMax = (exec k, k + 1))
    ∧ ((∀ j, (exec j).Status = downloadFailed404) →
        1 ≤ downloadRetryMax.toNat →
        (startDownload exec downloadRetryMax).2 = 1) := by
  refine ⟨retryLoop_calls_le exec _ _ _, ?_, ?_⟩
  · intro hbefore hstop hk
    have := retryLoop_stops_at_first exec downloadRetryMax.toNat k 0
      (mDownloadStatus downloadFailed none)
      (by intro j hj; simpa using hbefore j hj) (by simpa using hstop) hk
    simpa [startDownload] using this
  · intro hall hpos
    have hstop0 : retryStop (exec 0).Status = true := by
      rw [hall 0]; decide
    have := retryLoop_stops_at_first exec downloadRetryMax.toNat 0 0
      (mDownloadStatus downloadFailed none)
      (by intro j hj; exact absurd hj (Nat.not_lt_zero j)) (by simpa using hstop0) hpos
    simp only [startDownload] at this ⊢
    rw [this]

/-- Witness for C2: an executor failing generically on attempt 0 and
succeeding on attempt 1, with a retry budget of 5, is called twice and
returns the success; a constant-`Failed_NotFound` executor is called
once. -/
theorem startDownload_retry_behavior_witness :
    startDownload
        (fun j => if j = 1 then mDownloadStatus downloadSuccess none
          else mDownloadStatus downloadFailed none) 5
      = (mDownloadStatus downloadSuccess none, 2)
    ∧ (startDownload (fun _ => mDownloadStatus downloadFailed404 (some "404")) 5).2 = 1 := by
  constructor
  · have h := (startDownload_retry_behavior
      (fun j => if j = 1 then mDownloadStatus downloadSuccess none
        else mDownloadStatus downloadFailed none) 5 1).2.1
      (by decide) (by decide) (by decide)
    exact h
  · exact (startDownload_retry_behavior
      (fun _ => mDownloadStatus downloadFailed404 (some "404")) 5 0).2.2
      (fun _ => rfl) (by decide)

/-- C10: a zero-or-negative `config.DownloadRetryMax` means the loop body
never runs: zero `tryDownload` calls, and the returned status is the
initialiser `mDownloadStatus(downloadFailed)` — generic `Failed` with a
`nil` error. -/
theorem startDownload_nonpositive_max (exec : Nat → downloadStatusStruct)
    (downloadRetryMax : Int) (h : downloadRetryMax ≤ 0) :
    startDownload exec downloadRetryMax = (mDownloadStatus downloadFailed none, 0) := by
  have hz : downloadRetryMax.toNat = 0 := Int.toNat_of_nonpos h
  simp [startDownload, hz, retryLoop]

/-- Witness for C10 at `DownloadRetryMax = -3`. -/
theorem startDownload_nonpositive_max_witness :
    startDownload (fun _ => mDownloadStatus downloadSuccess none) (-3)
      = (mDownloadStatus downloadFailed none, 0) :=
  startDownload_nonpositive_max (fun _ => mDownloadStatus downloadSuccess none) (-3) (by decide)

/-- Modelled from the spec: the repository helper `stringInSlice`
(defined outside the provided source file) tests membership of a string
in a string slice; the spec's filter property reads it as plain set
membership (`ext ∈ allow`). -/
def stringInSlice (a : String) (list : List String) : Bool :=
  list.contains a

/-- The extension filter of `tryDownload` (`downloads.go` lines 688-712):
`shouldAbort` starts false, flips true when an allow-set is configured,
flips true on deny-set membership, and is forced false on allow-set
membership; an abort returns `Skipped_UnpermittedExtension` and a pass
returns nothing. -/
def checkExtension (allowedExtensions blockedExtensions : Option (List String))
    (extension : String) : Option downloadStatusStruct :=
  if allowedExtensions.isSome || blockedExtensions.isSome then
    let shouldAbort := false
    let shouldAbort := if allowedExtensions.isSome then true else shouldAbort
    let shouldAbort :=
      match blockedExtensions with
      | some blocked => if stringInSlice extension blocked then true else shouldAbort
      | none => shouldAbort
    let shouldAbort :=
      match allowedExtensions with
      | some allowed => if stringInSlice extension allowed then false else shouldAbort
      | none => shouldAbort
    if shouldAbort then some (mDownloadStatus downloadSkippedUnpermittedExtension none)
    else none
  else none

/-- The domain filter of `tryDownload` (`downloads.go` lines 736-760):
identical precedence to the extension filter, keyed on the URL hostname,
rejecting with `Skipped_UnpermittedDomain`. -/
def checkDomain (allowedDomains blockedDomains : Option (List String))
    (hostname : String) : Option downloadStatusStruct :=
  if allowedDomains.isSome || blockedDomains.isSome then
    let shouldAbort := false
    let shouldAbort := if allowedDomains.isSome then true else shouldAbort
    let shouldAbort :=
      match blockedDomains with
      | some blocked => if stringInSlice hostname blocked then true else shouldAbort
      | none => shouldAbort
    let shouldAbort :=
      match allowedDomains with
      | some allowed => if stringInSlice hostname allowed then false else shouldAbort
      | none => shouldAbort
    if shouldAbort then some (mDownloadStatus downloadSkippedUnpermittedDomain none)
    else none
  else none

/-- The spec's wording of the filter contract:
`permit(key) == (key ∈ allow) if allow configured else key ∉ deny`. -/
def specPermitted (allowSet denySet : Option (List String)) (key : String) : Prop :=
  match allowSet with
  | some allowed => stringInSlice key allowed = true
  | none =>
    match denySet with
    | some blocked => stringInSlice key blocked = false
    | none => True

theorem checkExtension_none_iff (allowSet denySet : Option (List String)) (key : String) :
    (checkExtension allowSet denySet key = none ↔ specPermitted allowSet denySet key)
    ∧ (checkExtension allowSet denySet key = none
        ∨ checkExtension allowSet denySet key
          = some (mDownloadStatus downloadSkippedUnpermittedExtension none)) := by
  match allowSet, denySet with
  | none, none => simp [checkExtension, specPermitted]
  | none, some blocked =>
    by_cases hb : stringInSlice key blocked
    · simp [checkExtension, specPermitted, hb]
    · simp [checkExtension, specPermitted, hb]
  | some allowed, none =>
    by_cases ha : stringInSlice key allowed
    · simp [checkExtension, specPermitted, ha]
    · simp [checkExtension, specPermitted, ha]
  | some allowed, some blocked =>
    by_cases ha : stringInSlice key allowed
    · by_cases hb : stringInSlice key blocked
      · simp [checkExtension, specPermitted, ha, hb]
      · simp [checkExtension, specPermitted, ha, hb]
    · by_cases hb : stringInSlice key blocked
      · simp [checkExtension, specPermitted, ha, hb]
      · simp [checkExtension, specPermitted, ha, hb]

theorem checkDomain_none_iff (allowSet denySet : Option (List String)) (key : String) :
    (checkDomain allowSet denySet key = none ↔ specPermitted allowSet denySet key)
    ∧ (checkDomain allowSet denySet key = none
        ∨ checkDomain allowSet denySet key
          = some (mDownloadStatus downloadSkippedUnpermittedDomain none)) := by
  match allowSet, denySet with
  | none, none => simp [checkDomain, specPermitted]
  | none, some blocked =>
    by_cases hb : stringInSlice key blocked
    · simp [checkDomain, specPermitted, hb]
    · simp [checkDomain, specPermitted, hb]
  | some allowed, none =>
    by_cases ha : stringInSlice key allowed
    · simp [checkDomain, specPermitted, ha]
    · simp [checkDomain, specPermitted, ha]
  | some allowed, some blocked =>
    by_cases ha : stringInSlice key allowed
    · by_cases hb : stringInSlice key blocked
      · simp [checkDomain, specPermitted, ha, hb]
      · simp [checkDomain, specPermitted, ha, hb]
    · by_cases hb : stringInSlice key blocked
      · simp [checkDomain, specPermitted, ha, hb]
      · simp [checkDomain, specPermitted, ha, hb]

/-- C3: for both the extension filter and the domain filter and every
allow/deny configuration, the key passes iff it is in the allow-set when
one is configured, and iff it is not in the deny-set otherwise (so
allow-set membership overrides deny-set membership); a rejection yields
`Skipped_UnpermittedExtension` resp. `Skipped_UnpermittedDomain`. -/
theorem filters_allow_overrides_deny (allowSet denySet : Option (List String)) (key : String) :
    ((checkExtension allowSet denySet key = none ↔ specPermitted allowSet denySet key)
      ∧ (checkExtension allowSet denySet key = none
          ∨ checkExtension allowSet denySet key
            = some (mDownloadStatus downloadSkippedUnpermittedExtension none)))
    ∧ ((checkDomain allowSet denySet key = none ↔ specPermitted allowSet denySet key)
      ∧ (checkDomain allowSet denySet key = none
          ∨ checkDomain allowSet denySet key
            = some (mDownloadStatus downloadSkippedUnpermittedDomain none))) :=
  ⟨checkExtension_none_iff allowSet denySet key, checkDomain_none_iff allowSet denySet key⟩

/-- The near-duplicate image filter loop of `tryDownload`
(`downloads.go` lines 783-792): walk the match list; the first match
whose dissimilarity score is strictly below the configured threshold
rejects with `Skipped_DetectedNearDuplicate` (leaving the index
unchanged); if no match scores below the threshold, the new hash is
added to the index.  Scores (Go `float64`) are modelled as rationals;
index entries are `(id, hash)` pairs. -/
def duplicateImageFilter (threshold : Rat) :
    List Rat → List (Nat × Nat) → Nat → Nat → Option downloadStatus × List (Nat × Nat)
  | [], imgStore, id, hash => (none, imgStore ++ [(id, hash)])
  | score :: matchList, imgStore, id, hash =>
    if score < threshold then (some downloadSkippedDetectedDuplicate, imgStore)
    else duplicateImageFilter threshold matchList imgStore id hash

/-- C5: the threshold comparison is strict: some match strictly below the
threshold rejects the image as `Skipped_DetectedNearDuplicate` without
touching the index, while an image all of whose match scores are `≥` the
threshold (ties included) is accepted and its hash inserted. -/
theorem duplicateImageFilter_threshold (threshold : Rat) (matchList : List Rat)
    (imgStore : List (Nat × Nat)) (id hash : Nat) :
    ((∃ s ∈ matchList, s < threshold) →
      duplicateImageFilter threshold matchList imgStore id hash
        = (some downloadSkippedDetectedDuplicate, imgStore))
    ∧ ((∀ s ∈ matchList, threshold ≤ s) →
      duplicateImageFilter threshold matchList imgStore id hash
        = (none, imgStore ++ [(id, hash)])) := by
  induction matchList with
  | nil =>
    constructor
    · rintro ⟨s, hs, _⟩; exact absurd hs (List.not_mem_nil s)
    · intro _; rfl
  | cons score rest ih =>
    constructor
    · rintro ⟨s, hs, hlt⟩
      rcases List.mem_cons.mp hs with hhead | htail
      · subst hhead
        simp [duplicateImageFilter, hlt]
      · by_cases hsc : score < threshold
        · simp [duplicateImageFilter, hsc]
        · simp only [duplicateImageFilter, hsc, if_false]
          exact ih.1 ⟨s, htail, hlt⟩
    · intro hall
      have hsc : ¬ score < threshold := not_lt.mpr (hall score (List.mem_cons_self score rest))
      simp only [duplicateImageFilter, hsc, if_false]
      exact ih.2 (fun s hs => hall s (List.mem_cons_of_mem score hs))

/-- Witness for C5: threshold 5; a best score of exactly 5 is accepted
and indexed, while a score of 4 is rejected. -/
theorem duplicateImageFilter_threshold_witness :
    duplicateImageFilter 5 [5] [] 7 99 = (none, [(7, 99)])
    ∧ duplicateImageFilter 5 [4] [] 7 99 = (some downloadSkippedDetectedDuplicate, []) := by
  constructor
  · exact (duplicateImageFilter_threshold 5 [5] [] 7 99).2 (by
      intro s hs
      have : s = (5 : Rat) := by simpa using hs
      rw [this])
  · exact (duplicateImageFilter_threshold 5 [4] [] 7 99).1 ⟨4, by simp, by norm_num⟩

/-- The write-then-record tail of `tryDownload`
(`downloads.go` lines 961-992): write the buffered body to
`completePath` (a failure returns `Failed_WritingFile` with no file
created), then best-effort `os.Chtimes` (its error is only logged), then
insert the download record; a record-sink failure returns
`Failed_WritingDatabase` while the written file stays on disk.  The
filesystem is modelled as the list of file paths present; Go `error`
values as `Option String`. -/
def writeAndRecord (fsFiles : List String) (completePath : String)
    (writeErr _chtimesErr dbErr : Option String) : downloadStatusStruct × List String :=
  match writeErr with
  | some e => (mDownloadStatus downloadFailedWritingFile (some e), fsFiles)
  | none =>
    let fsFiles := completePath :: fsFiles
    match dbErr with
    | some e => (mDownloadStatus downloadFailedWritingDatabase (some e), fsFiles)
    | none => (mDownloadStatus downloadSuccess none, fsFiles)

/-- C6: when the disk write succeeded but the record-sink insert fails,
the executor returns the distinct status `Failed_WritingDatabase`
carrying the sink error, and the written file remains on disk (the
resulting filesystem still contains `completePath`; there is no delete
on this path). -/
theorem writeAndRecord_sink_failure (fsFiles : List String) (completePath : String)
    (chtimesErr : Option String) (e : String) :
    writeAndRecord fsFiles completePath none chtimesErr (some e)
      = (mDownloadStatus downloadFailedWritingDatabase (some e), completePath :: fsFiles)
    ∧ completePath ∈ (writeAndRecord fsFiles completePath none chtimesErr (some e)).2
    ∧ (∀ s : downloadStatus, s ≠ downloadFailedWritingDatabase →
        statusRank s ≠ statusRank downloadFailedWritingDatabase) := by
  refine ⟨rfl, ?_, by decide⟩
  simp [writeAndRecord]

/-- Witness for C6 (the last conjunct of the theorem is a Prop-valued
implication): instantiated at a concrete filesystem and error. -/
theorem writeAndRecord_sink_failure_witness :
    writeAndRecord ["old.png"] "dir/new.png" none none (some "db locked")
      = (mDownloadStatus downloadFailedWritingDatabase (some "db locked"),
          ["dir/new.png", "old.png"])
    ∧ statusRank downloadSuccess ≠ statusRank downloadFailedWritingDatabase := by
  refine ⟨(writeAndRecord_sink_failure ["old.png"] "dir/new.png" none "db locked").1, ?_⟩
  exact (writeAndRecord_sink_failure ["old.png"] "dir/new.png" none "db locked").2.2
    downloadSuccess (by decide)

/-- Modelled from the spec: the repository helper `filepathExtension`
(defined outside the provided source file) returns the filename
extension including its leading dot (the part after the last `.` of the
last path segment), or the empty string when there is none — the spec's
"numeric suffix inserted before the extension (`name-1.ext`)". -/
def filepathExtension (p : String) : String :=
  let revTail := p.toList.reverse.takeWhile (fun c => c != '/')
  let revName := revTail.takeWhile (fun c => c != '.')
  if revName.length < revTail.length then String.mk ('.' :: revName.reverse)
  else ""

/-- The candidate path probed at counter `i` (`downloads.go` lines
942-943): `tmpPath[0:len(tmpPath)-len(filepathExtension(tmpPath))] +
"-" + strconv.Itoa(i) + filepathExtension(tmpPath)`. -/
def suffixedPath (tmpPath : String) (i : Nat) : String :=
  String.mk (tmpPath.toList.take
      (tmpPath.toList.length - (filepathExtension tmpPath).toList.length))
    ++ "-" ++ toString i ++ filepathExtension tmpPath

/-- The linear probing loop of `downloads.go` lines 940-948: starting at
counter `i`, return the first suffixed path the existence check `ex`
reports absent.  The Go `for` loop is unbounded; it is modelled with a
fuel argument, `none` meaning the loop did not finish within the given
fuel. -/
def findFreeSuffix (ex : String → Bool) (tmpPath : String) :
    Nat → Nat → Option String
  | _, 0 => none
  | i, fuel + 1 =>
    let completePath := suffixedPath tmpPath i
    if ex completePath then findFreeSuffix ex tmpPath (i + 1) fuel
    else some completePath

/-- Outcome of the existence check of `downloads.go` lines 936-958:
either proceed to write at a path, or skip as a duplicate. -/
inductive pathDecision where
  | proceed (path : String)
  | skippedDuplicate
deriving DecidableEq, Repr

/-- The "Check if exists" step of `tryDownload` (`downloads.go` lines
936-958): when the composed path exists, either probe for the first free
numeric suffix starting at 1 (policy `SavePossibleDuplicates` true) or
skip as a duplicate; when it does not exist, write at the composed
path. -/
def checkIfExists (ex : String → Bool) (savePossibleDuplicates : Bool)
    (completePath : String) (fuel : Nat) : Option pathDecision :=
  if ex completePath then
    if savePossibleDuplicates then
      Option.map pathDecision.proceed (findFreeSuffix ex completePath 1 fuel)
    else some pathDecision.skippedDuplicate
  else some (pathDecision.proceed completePath)

theorem findFreeSuffix_min (ex : String → Bool) (tmpPath : String) :
    ∀ (fuel i m : Nat), i ≤ m →
      (∀ j, j < m → i ≤ j → ex (suffixedPath tmpPath j) = true) →
      ex (suffixedPath tmpPath m) = false →
      m < i + fuel →
      findFreeSuffix ex tmpPath i fuel = some (suffixedPath tmpPath m) := by
  intro fuel
  induction fuel with
  | zero => intro i m him _ _ hfuel; omega
  | succ fuel ih =>
    intro i m him hcoll hfree hfuel
    by_cases heq : i = m
    · subst heq
      simp [findFreeSuffix, hfree]
    · have hlt : i < m := lt_of_le_of_ne him heq
      have hex : ex (suffixedPath tmpPath i) = true := hcoll i hlt (Nat.le_refl i)
      simp only [findFreeSuffix, hex, if_true]
      exact ih (i + 1) m hlt (fun j hj hij => hcoll j hj (Nat.le_of_succ_le hij)) hfree
        (by omega)

theorem findFreeSuffix_free (ex : String → Bool) (tmpPath : String) :
    ∀ (fuel i : Nat) (q : String),
      findFreeSuffix ex tmpPath i fuel = some q → ex q = false := by
  intro fuel
  induction fuel with
  | zero => intro i q h; exact absurd h (by simp [findFreeSuffix])
  | succ fuel ih =>
    intro i q h
    by_cases hex : ex (suffixedPath tmpPath i)
    · simp only [findFreeSuffix, hex, if_true] at h
      exact ih (i + 1) q h
    · simp [findFreeSuffix, hex] at h
      rw [← h]
      simpa using hex

/-- C4: when the composed destination path exists — with duplicates
allowed, the executor writes to the suffixed path `name-m.ext` for the
smallest positive `m` whose path does not exist (so over `N`
pre-existing colliding suffixes it picks the `(N+1)`-th, here stated via
the minimality hypotheses), and any path it proceeds to write never
collides with an existing one; with duplicates disallowed, it returns
`Skipped_Duplicate` and no path is written. -/
theorem checkIfExists_suffix_probing (ex : String → Bool) (completePath : String) (fuel : Nat) :
    (ex completePath = true →
      checkIfExists ex false completePath fuel = some pathDecision.skippedDuplicate)
    ∧ (∀ m, ex completePath = true → 1 ≤ m →
        (∀ j, j < m → 1 ≤ j → ex (suffixedPath completePath j) = true) →
        ex (suffixedPath completePath m) = false →
        m ≤ fuel →
        checkIfExists ex true completePath fuel
          = some (pathDecision.proceed (suffixedPath completePath m)))
    ∧ (∀ (d : Bool) (p : String),
        checkIfExists ex d completePath fuel = some (pathDecision.proceed p) →
        ex p = false) := by
  refine ⟨?_, ?_, ?_⟩
  · intro h
    simp [checkIfExists, h]
  · intro m hex h1 hcoll hfree hfuel
    have hmin := findFreeSuffix_min ex completePath fuel 1 m h1 hcoll hfree (by omega)
    simp [checkIfExists, hex, hmin]
  · intro d p h
    by_cases hex : ex completePath
    · cases d with
      | true =>
        simp only [checkIfExists, hex, if_true] at h
        rcases Option.map_eq_some'.mp h with ⟨q, hq, hqp⟩
        have : q = p := by
          cases hqp
          rfl
        subst this
        exact findFreeSuffix_free ex completePath fuel 1 q hq
      | false =>
        simp [checkIfExists, hex] at h
    · simp only [checkIfExists, hex, Bool.false_eq_true, if_false,
        Option.some.injEq] at h
      cases h
      simpa using hex
  
/-- Witness for C4: with `name.ext`, `name-1.ext`, `name-2.ext` already
on disk (N = 2 colliding suffixes), probing proceeds at `name-3.ext`
(the (N+1)-th suffix); with the skip policy, the result is
`Skipped_Duplicate`. -/
theorem checkIfExists_suffix_probing_witness :
    checkIfExists (fun s => ["name.ext", "name-1.ext", "name-2.ext"].contains s)
        true "name.ext" 10
      = some (pathDecision.proceed (suffixedPath "name.ext" 3))
    ∧ suffixedPath "name.ext" 3 = "name-3.ext"
    ∧ checkIfExists (fun s => ["name.ext", "name-1.ext", "name-2.ext"].contains s)
        false "name.ext" 10
      = some pathDecision.skippedDuplicate := by
  refine ⟨?_, by decide, ?_⟩
  · exact (checkIfExists_suffix_probing
      (fun s => ["name.ext", "name-1.ext", "name-2.ext"].contains s) "name.ext" 10).2.1
      3 (by decide) (by decide) (by decide) (by decide) (by decide)
  · exact (checkIfExists_suffix_probing
      (fun s => ["name.ext", "name-1.ext", "name-2.ext"].contains s) "name.ext" 10).1
      (by decide)

/-- The link-activity-log gate of `startDownload` (`downloads.go` lines
532-548): `shouldLog` starts `true`; when the final status is
`> downloadSuccess` it becomes `LogFailures`; otherwise, if
`LogDownloads` is set, it is (redundantly) set `true`; finally, when the
`FilterDuplicates` toggle is present and on and the input URL already
occurs in the current log contents (`strings.Contains`, modelled by the
boolean `urlInLog`), it becomes `false`. -/
def shouldLogLink (status : downloadStatus) (logFailures logDownloads : Bool)
    (filterDuplicates : Option Bool) (urlInLog : Bool) : Bool :=
  let shouldLog := true
  let shouldLog :=
    if statusRank downloadSuccess < statusRank status then logFailures
    else if logDownloads then true
    else shouldLog
  match filterDuplicates with
  | some fd => if fd && urlInLog then false else shouldLog
  | none => shouldLog

/-- Counterexample to C7 as stated: with link-logging active, a final
`Success` status and the log-downloads toggle **off** (and no duplicate
filtering), the activity-log line is still appended — contradicting "a
line for a final success status is appended only when the log-downloads
toggle is on". -/
theorem shouldLogLink_success_without_toggle :
    shouldLogLink downloadSuccess false false none false = true := by
  decide

/-- C7 (amended): a line for a final status above `Success` (all failed,
skipped and ignored outcomes) is appended iff the log-failures toggle is
on; a line for a final `Success` status is appended regardless of the
log-downloads toggle (which has no observable effect); and when the
filter-duplicates toggle is present and on, no line is appended if the
URL already appears in the existing log contents.  Stated as a complete
characterization of the gate. -/
theorem shouldLogLink_characterization (status : downloadStatus)
    (logFailures logDownloads : Bool) (filterDuplicates : Option Bool) (urlInLog : Bool) :
    shouldLogLink status logFailures logDownloads filterDuplicates urlInLog
      = (if (filterDuplicates.getD false) && urlInLog then false
         else if statusRank downloadSuccess < statusRank status then logFailures
         else true)
    ∧ shouldLogLink status logFailures logDownloads filterDuplicates urlInLog
      = shouldLogLink status logFailures true filterDuplicates urlInLog := by
  revert status logFailures logDownloads filterDuplicates urlInLog
  decide

/-- A guild emoji as used by `tryDownload` (`downloads.go` lines
1012-1021): its API name and whether it is animated. -/
structure guildEmoji where
  apiName : String
  animated : Bool
deriving DecidableEq, Repr

/-- Modelled from the spec: `defaultReact` (defined outside the provided
source file) is the library default reaction emoji; its exact value is
immaterial here. -/
def defaultReact : String := "OK"

/-- The eligibility test of `downloads.go` line 1018:
`!chosenEmoji.Animated && !stringInSlice(formattedEmoji, *channelConfig.BlacklistReactEmojis)`. -/
def emojiEligible (blacklist : List String) (e : guildEmoji) : Bool :=
  !e.animated && !stringInSlice e.apiName blacklist

/-- The unbounded sampling loop of `downloads.go` lines 1014-1022:
at step `k` draw `emojis[picks k % len(emojis)]` (modelling
`rand.Intn`); return its name if eligible, else loop.  The Go `for` loop
has no bound; it is modelled with fuel, `none` meaning the loop did not
finish within the given fuel. -/
def pickReactionLoop (emojis : List guildEmoji) (blacklist : List String)
    (picks : Nat → Nat) : Nat → Nat → Option String
  | _, 0 => none
  | k, fuel + 1 =>
    let chosenEmoji := emojis.getD (picks k % emojis.length) ⟨"", true⟩
    if emojiEligible blacklist chosenEmoji then some chosenEmoji.apiName
    else pickReactionLoop emojis blacklist picks (k + 1) fuel

/-- The random-guild-emoji branch of `tryDownload` (`downloads.go` lines
1012-1025): sample only when the guild has more than one emoji,
otherwise fall back to the library default reaction. -/
def chooseGuildReaction (emojis : List guildEmoji) (blacklist : List String)
    (picks : Nat → Nat) (fuel : Nat) : Option String :=
  if 1 < emojis.length then pickReactionLoop emojis blacklist picks 0 fuel
  else some defaultReact

/-- Termination of the selection procedure for a given emoji set,
blacklist and draw stream: some finite fuel suffices for the loop to
produce a reaction. -/
def reactionSelectionTerminates (emojis : List guildEmoji) (blacklist : List String)
    (picks : Nat → Nat) : Prop :=
  ∃ fuel, chooseGuildReaction emojis blacklist picks fuel ≠ none

theorem pickReactionLoop_none (emojis : List guildEmoji) (blacklist : List String)
    (picks : Nat → Nat)
    (h : ∀ k, emojiEligible blacklist
        (emojis.getD (picks k % emojis.length) ⟨"", true⟩) = false) :
    ∀ (fuel k : Nat), pickReactionLoop emojis blacklist picks k fuel = none := by
  intro fuel
  induction fuel with
  | zero => intro k; rfl
  | succ fuel ih =>
    intro k
    simp only [pickReactionLoop, h k, Bool.false_eq_true, if_false]
    exact ih (k + 1)

theorem pickReactionLoop_some (emojis : List guildEmoji) (blacklist : List String)
    (picks : Nat → Nat) :
    ∀ (fuel k j : Nat), k ≤ j → j < k + fuel →
      emojiEligible blacklist (emojis.getD (picks j % emojis.length) ⟨"", true⟩) = true →
      pickReactionLoop emojis blacklist picks k fuel ≠ none := by
  intro fuel
  induction fuel with
  | zero => intro k j hkj hj _; omega
  | succ fuel ih =>
    intro k j hkj hj helig
    by_cases hk : emojiEligible blacklist (emojis.getD (picks k % emojis.length) ⟨"", true⟩) = true
    · intro hcontra
      simp only [pickReactionLoop] at hcontra
      rw [if_pos hk] at hcontra
      exact Option.some_ne_none _ hcontra
    · have hne : k ≠ j := by
        intro hkj'
        rw [hkj'] at hk
        exact hk helig
      intro hcontra
      simp only [pickReactionLoop] at hcontra
      rw [if_neg hk] at hcontra
      exact ih (k + 1) j (by omega) (by omega) helig hcontra

/-- Counterexample to C8 as stated: a guild whose two emojis are both
animated (none eligible, empty blacklist) makes the sampling loop run
forever for every draw stream value — here witnessed for the identity
draw stream — and no fallback to the default reaction occurs, so the
selection procedure does not terminate for every guild emoji set. -/
theorem reaction_selection_divergence :
    ¬ reactionSelectionTerminates [⟨"a", true⟩, ⟨"b", true⟩] [] (fun n => n) := by
  rintro ⟨fuel, hfuel⟩
  apply hfuel
  have hall : ∀ k, emojiEligible []
      (([⟨"a", true⟩, ⟨"b", true⟩] : List guildEmoji).getD
        ((fun n => n) k % ([⟨"a", true⟩, ⟨"b", true⟩] : List guildEmoji).length)
        ⟨"", true⟩) = false := by
    intro k
    rcases Nat.mod_two_eq_zero_or_one k with h | h <;>
      simp [emojiEligible, List.getD, h, stringInSlice]
  simp only [chooseGuildReaction]
  rw [if_pos (by decide)]
  exact pickReactionLoop_none _ _ _ hall fuel 0

/-- C8 (amended): the selection procedure terminates iff the guild has
at most one emoji (in which case, and only in which case, it falls back
to the library default reaction) or some drawn emoji is eligible
(non-animated and not blacklisted); with more than one emoji all of them
ineligible, the sampling loop never terminates and no fallback occurs. -/
theorem reaction_selection_characterization (emojis : List guildEmoji)
    (blacklist : List String) (picks : Nat → Nat) :
    (reactionSelectionTerminates emojis blacklist picks ↔
      (emojis.length ≤ 1 ∨ ∃ k, emojiEligible blacklist
          (emojis.getD (picks k % emojis.length) ⟨"", true⟩) = true))
    ∧ (emojis.length ≤ 1 →
        ∀ fuel, chooseGuildReaction emojis blacklist picks fuel = some defaultReact) := by
  constructor
  · constructor
    · rintro ⟨fuel, hfuel⟩
      by_cases hlen : 1 < emojis.length
      · right
        by_contra hno
        push_neg at hno
        have hall : ∀ k, emojiEligible blacklist
            (emojis.getD (picks k % emojis.length) ⟨"", true⟩) = false := by
          intro k
          have := hno k
          simpa using this
        apply hfuel
        simp only [chooseGuildReaction, hlen, if_true]
        exact pickReactionLoop_none _ _ _ hall fuel 0
      · left; omega
    · rintro (hlen | ⟨k, hk⟩)
      · refine ⟨0, ?_⟩
        have hnot : ¬ 1 < emojis.length := by omega
        simp [chooseGuildReaction, hnot]
      · by_cases hlen : 1 < emojis.length
        · refine ⟨k + 1, ?_⟩
          simp only [chooseGuildReaction, hlen, if_true]
          exact pickReactionLoop_some emojis blacklist picks (k + 1) 0 k
            (Nat.zero_le k) (by omega) hk
        · refine ⟨0, ?_⟩
          simp [chooseGuildReaction, hlen]
  · intro hlen fuel
    have hnot : ¬ 1 < emojis.length := by omega
    simp [chooseGuildReaction, hnot]

/-- Witness for C8 (amended): a two-emoji guild whose second emoji is
eligible terminates, and a single-emoji guild falls back to the default
reaction. -/
theorem reaction_selection_characterization_witness :
    reactionSelectionTerminates [⟨"a", true⟩, ⟨"b", false⟩] [] (fun n => n)
    ∧ chooseGuildReaction [⟨"c", false⟩] [] (fun n => n) 0 = some defaultReact := by
  constructor
  · exact (reaction_selection_characterization [⟨"a", true⟩, ⟨"b", false⟩] []
      (fun n => n)).1.mpr (Or.inr ⟨1, by decide⟩)
  · exact (reaction_selection_characterization [⟨"c", false⟩] [] (fun n => n)).2
      (by decide) 0

/-- Modelled from the spec: `trimDownloadedLinks` (defined outside the
provided source file) is absent from §4.1's resolver-dispatch contract,
which hands the resolver mapping (or the fallback `{url: ""}`) through
unchanged; it is therefore modelled as the identity. -/
def trimDownloadedLinks (links : List (String × String)) : List (String × String) :=
  links

/-- The query-stripping step of `downloads.go` lines 367-373
(`url.Parse`, clear `RawQuery`, re-serialize), modelled as taking the
characters before the first `?`.  This model is idempotent, which is
the property §4.1 relies on ("query stripping is idempotent after one
pass"). -/
def stripQuery (u : String) : String :=
  String.mk (u.toList.takeWhile (fun c => c != '?'))

/-- The platform emoji-CDN link shape suppressed at
`downloads.go` line 362. -/
def emojisCdnUrl : String := "https://cdn.discordapp.com/emojis/"

theorem takeWhile_ne_length_lt {α : Type} (p : α → Bool) :
    ∀ l : List α, l.takeWhile p ≠ l → (l.takeWhile p).length < l.length := by
  intro l
  induction l with
  | nil => intro h; exact absurd rfl h
  | cons a l ih =>
    intro h
    by_cases hp : p a = true
    · have h' : l.takeWhile p ≠ l := by
        intro he
        apply h
        simp [List.takeWhile, hp, he]
      have := ih h'
      simp only [List.takeWhile, hp]
      simpa using Nat.succ_lt_succ this
    · have hpf : p a = false := by simpa using hp
      simp [List.takeWhile, hpf]

theorem takeWhile_idem {α : Type} (p : α → Bool) :
    ∀ l : List α, (l.takeWhile p).takeWhile p = l.takeWhile p := by
  intro l
  induction l with
  | nil => rfl
  | cons a l ih =>
    by_cases hp : p a = true
    · simp [List.takeWhile, hp, ih]
    · have hpf : p a = false := by simpa using hp
      simp [List.takeWhile, hpf]

theorem stripQuery_idem (u : String) : stripQuery (stripQuery u) = stripQuery u :=
  congrArg String.mk (takeWhile_idem (fun c => c != '?') u.toList)

theorem stripQuery_length_lt (u : String) (h : stripQuery u ≠ u) :
    (stripQuery u).length < u.length := by
  have hl : u.toList.takeWhile (fun c => c != '?') ≠ u.toList := by
    intro he
    apply h
    show String.mk (u.toList.takeWhile (fun c => c != '?')) = u
    rw [he]
    exact rfl
  exact takeWhile_ne_length_lt _ u.toList hl

/-- The resolver dispatch `getDownloadLinks` (`downloads.go` lines
198-377).  The fixed cascade of site resolvers (lines 207-360) is
abstracted into a single parameter `resolve`: `some links` when some
resolver matched and returned a non-empty link set (each such branch
returns `trimDownloadedLinks(links)`), `none` when the cascade falls
through.  After the cascade: emoji-CDN URLs return `nil` (line 362);
otherwise the query string is stripped and, when that changed the URL,
dispatch recurses on the stripped URL (line 372); otherwise the fallback
`{inputURL: ""}` is returned (line 376). -/
def getDownloadLinks (resolve : String → Option (List (String × String)))
    (inputURL : String) : List (String × String) :=
  match resolve inputURL with
  | some links => trimDownloadedLinks links
  | none =>
    if List.isPrefixOf emojisCdnUrl.toList inputURL.toList then []
    else if h : stripQuery inputURL = inputURL then trimDownloadedLinks [(inputURL, "")]
    else trimDownloadedLinks (getDownloadLinks resolve (stripQuery inputURL))
termination_by inputURL.length
decreasing_by
  exact stripQuery_length_lt inputURL h

/-- A resolver cascade in which no site resolver produces a non-empty
result, for concrete evaluations. -/
def resolveNone : String → Option (List (String × String)) := fun _ => none

/-- Counterexample to C9 as stated: with no resolver producing results,
the input `"http://a?b"` (not an emoji-CDN link) does **not** yield the
fallback mapping `{inputURL: ""}` — the recursion on the query-stripped
URL makes the fallback keyed by `"http://a"` instead of the original
input URL. -/
theorem getDownloadLinks_fallback_keying :
    getDownloadLinks resolveNone "http://a?b" ≠ [("http://a?b", "")] := by
  have hstrip : stripQuery "http://a?b" = "http://a" := by decide
  have heval : getDownloadLinks resolveNone "http://a?b" = [("http://a", "")] := by
    rw [getDownloadLinks.eq_def]
    simp only [resolveNone]
    rw [if_neg (by decide :
      ¬ (List.isPrefixOf emojisCdnUrl.toList ("http://a?b").toList = true))]
    rw [dif_neg (by decide : ¬ (stripQuery "http://a?b" = "http://a?b"))]
    rw [hstrip]
    rw [getDownloadLinks.eq_def]
    simp only [resolveNone]
    rw [if_neg (by decide :
      ¬ (List.isPrefixOf emojisCdnUrl.toList ("http://a").toList = true))]
    rw [dif_pos (by decide : stripQuery "http://a" = "http://a")]
    rfl
  rw [heval]
  decide

/-- C9 (amended): resolver dispatch terminates with at most one
query-stripping recursion (stripping is idempotent, so the second pass
never recurses — the third conjunct's right-hand side is recursion-free);
when no resolver returns a non-empty result and the URL is not an
emoji-CDN link, the result is the fallback mapping keyed by the
query-stripped URL (`{inputURL: ""}` exactly when the URL carries no
query string); emoji-CDN URLs return the empty result with no
fallback. -/
theorem getDownloadLinks_dispatch (resolve : String → Option (List (String × String)))
    (u : String) :
    (resolve u = none → List.isPrefixOf emojisCdnUrl.toList u.toList = true →
      getDownloadLinks resolve u = [])
    ∧ (resolve u = none → List.isPrefixOf emojisCdnUrl.toList u.toList = false →
        stripQuery u = u → getDownloadLinks resolve u = [(u, "")])
    ∧ (resolve u = none → List.isPrefixOf emojisCdnUrl.toList u.toList = false →
        stripQuery u ≠ u →
        getDownloadLinks resolve u =
          (match resolve (stripQuery u) with
           | some links => links
           | none =>
             if List.isPrefixOf emojisCdnUrl.toList (stripQuery u).toList then []
             else [(stripQuery u, "")])) := by
  refine ⟨?_, ?_, ?_⟩
  · intro h1 h2
    have h2p : emojisCdnUrl.data <+: u.data := by simpa using h2
    rw [getDownloadLinks.eq_def, h1]
    simp [h2p]
  · intro h1 h2 h3
    rw [getDownloadLinks.eq_def, h1]
    simp only [h2, Bool.false_eq_true, if_false]
    rw [dif_pos h3]
    rfl
  · intro h1 h2 h3
    rw [getDownloadLinks.eq_def, h1]
    simp only [h2, Bool.false_eq_true, if_false]
    rw [dif_neg h3]
    show getDownloadLinks resolve (stripQuery u) = _
    rw [getDownloadLinks.eq_def]
    cases hres : resolve (stripQuery u) with
    | some links => rfl
    | none =>
      by_cases hp : emojisCdnUrl.data <+: (stripQuery u).data
      · simp [hp]
      · simp [hp, stripQuery_idem, trimDownloadedLinks]

/-- Witness for C9 (amended): a query-free URL nothing resolves falls
back to itself, and an emoji-CDN URL yields the empty result. -/
theorem getDownloadLinks_dispatch_witness :
    getDownloadLinks resolveNone "http://a" = [("http://a", "")]
    ∧ getDownloadLinks resolveNone "https://cdn.discordapp.com/emojis/123" = [] := by
  constructor
  · exact (getDownloadLinks_dispatch resolveNone "http://a").2.1 rfl (by decide) (by decide)
  · exact (getDownloadLinks_dispatch resolveNone "https://cdn.discordapp.com/emojis/123").1
      rfl (by decide)
